import Mathlib

/-!
A verification development for the zoltjolt repository (a YouTube caption /
sentiment ETL pipeline).  The definitions below are a shallow embedding of the
Python sources `database_manager.py` and `etl.py`:

* Python strings are Lean `String`s; the handful of `str` methods the code
  uses (`strip`, `split`, `replace`, `lower`, `join`, substring `in`,
  `int(...)`) are re-implemented below on `List Char`, matching CPython
  semantics on the ASCII inputs the pipeline handles (Python's `int` also
  accepts underscores and non-ASCII digits, and `lower` is Unicode-aware;
  those forms never occur here and are not modelled).
* The SQLite tables are Lean structures with one list per table; SQL
  statements become list operations over those structures.  `TIMESTAMP`
  columns (`CURRENT_TIMESTAMP` / `datetime.now()`) are abstracted as a single
  monotone integer clock passed explicitly to each operation.
* Python floats produced by `to_seconds` (`h*3600 + m*60 + s + ms/1000.0`)
  are represented exactly as integers in thousandths of a second: the value
  stored for a timestamp is 1000 times the real number the source computes
  (which is exactly `(h*3600 + m*60 + s)*1000 + ms`).  Similarly the stub
  sentiment scores 0.9, -0.8, 0.1 are stored in tenths as 9, -8, 1.
* Fallible code (`try`/`except`, functions returning `None`) returns
  `Option`/`Except`.
-/

/-! ## Python string primitives -/

/-- Python whitespace as used by `str.strip()` (space, tab, newline, carriage
return, vertical tab, form feed). -/
def py_ws (c : Char) : Bool :=
  c == ' ' || c == '\t' || c == '\n' || c == '\r' || c == '\x0b' || c == '\x0c'

/-- Python `s.strip()`: drop whitespace from both ends. -/
def py_strip (s : String) : String :=
  String.mk (((s.toList.dropWhile py_ws).reverse.dropWhile py_ws).reverse)

/-- Does the second list start with the first? (helper for substring search
and for multi-character `split`). -/
def beg_match : List Char → List Char → Bool
  | [], _ => true
  | _ :: _, [] => false
  | a :: as, b :: bs => a == b && beg_match as bs

/-- Does the text (second argument) contain the pattern as a contiguous
substring?  Models Python's `pat in text`. -/
def has_sub (pat : List Char) : List Char → Bool
  | [] => beg_match pat []
  | c :: cs => beg_match pat (c :: cs) || has_sub pat cs

/-- Fuelled worker for Python `str.split(sep)` with a non-empty separator
`c0 :: rest`: scan left to right, break at each (non-overlapping) occurrence
of the separator, keep empty pieces.  The fuel is always instantiated with
the length of the text, which each step strictly decreases, so the
fuel-exhausted arm is never reached. -/
def split_seq_aux (c0 : Char) (rest : List Char) : Nat → List Char → List (List Char)
  | _, [] => [[]]
  | 0, l => [l]
  | Nat.succ n, c :: cs =>
    if beg_match (c0 :: rest) (c :: cs) then
      [] :: split_seq_aux c0 rest n (cs.drop rest.length)
    else
      match split_seq_aux c0 rest n cs with
      | [] => [[c]]
      | r :: rs => (c :: r) :: rs

/-- Python `s.split(sep)` for a non-empty separator (the only form the source
uses: `'\n\n'`, `'\n'`, `'-->'`, `':'`, `'.'`). -/
def py_split (sep : String) (s : String) : List String :=
  match sep.toList with
  | [] => [s]
  | c :: rest => (split_seq_aux c rest s.toList.length s.toList).map String.mk

/-- Python `s.replace(',', '.')` (single-character pattern and replacement,
as in the source). -/
def py_replace_comma (s : String) : String :=
  String.mk (s.toList.map (fun c => if c == ',' then '.' else c))

/-- Python `s.lower()` restricted to ASCII (all inputs here are ASCII). -/
def py_lower (s : String) : String :=
  String.mk (s.toList.map Char.toLower)

/-- Numeric value of a list of decimal digits. -/
def digits_val (cs : List Char) : Nat :=
  cs.foldl (fun a c => a * 10 + (c.toNat - 48)) 0

/-- Python `int(s)` on the ASCII strings this pipeline feeds it: strip
whitespace, allow one optional sign, then require at least one decimal
digit.  Returns `none` where Python raises `ValueError`. -/
def py_int (s : String) : Option Int :=
  match (py_strip s).toList with
  | [] => none
  | '+' :: ds =>
    if ds.isEmpty then none
    else if ds.all Char.isDigit then some (digits_val ds) else none
  | '-' :: ds =>
    if ds.isEmpty then none
    else if ds.all Char.isDigit then some (-(digits_val ds : Int)) else none
  | ds =>
    if ds.all Char.isDigit then some (digits_val ds) else none

/-! ## `etl.py`: SRT parsing and the sentiment stub -/

/-- One parsed SRT cue, the dict `{"start": .., "end": .., "text": ..}` built
by `parse_srt_segment`.  `start`/`stop` hold the source's fractional-second
floats exactly, scaled to thousandths of a second (the field named `stop`
is the dict key `"end"`, a Lean keyword). -/
structure SrtSeg where
  start : Int
  stop : Int
  text : String
deriving DecidableEq, Repr

/-- `etl.to_seconds` inside `parse_srt_segment`: split on `':'` (needing at
least three fields, else `IndexError`), parse hour/minute, split the seconds
field on `'.'`, parse seconds and the optional fractional part, and combine.
The source computes `h*3600 + m*60 + s + ms/1000.0`; this returns that value
times 1000, which is exact.  `none` models the caught
`ValueError`/`IndexError`. -/
def to_seconds (t : String) : Option Int :=
  let parts := py_split ":" t
  if parts.length < 3 then none
  else
    match py_int (parts.getD 0 ""), py_int (parts.getD 1 "") with
    | some h, some m =>
      let s_parts := py_split "." (parts.getD 2 "")
      match py_int (s_parts.getD 0 "") with
      | some s =>
        match (if s_parts.length > 1 then py_int (s_parts.getD 1 "") else some 0) with
        | some ms => some ((h * 3600 + m * 60 + s) * 1000 + ms)
        | none => none
      | none => none
    | _, _ => none

/-- `etl.parse_srt_segment`: strip the block, split into lines, reject blocks
of fewer than three lines, take line 1 as the timestamp line and the rest as
text; split the timestamp line on `-->` into exactly two parts (else the
unpacking raises `ValueError`), strip each and replace `','` with `'.'`,
convert both with `to_seconds`, and join the text lines with spaces.
Any parsing failure yields `none` (the caught exception path). -/
def parse_srt_segment (segment : String) : Option SrtSeg :=
  let lines := py_split "\n" (py_strip segment)
  if lines.length < 3 then none
  else
    let time_line := lines.getD 1 ""
    let text_lines := lines.drop 2
    match (py_split "-->" time_line).map (fun t => py_replace_comma (py_strip t)) with
    | [start_str, end_str] =>
      match to_seconds start_str, to_seconds end_str with
      | some st, some en => some ⟨st, en, String.intercalate " " text_lines⟩
      | _, _ => none
    | _ => none

/-- The sentiment stub's result dict `{"label": .., "score": ..}`; the score
is stored in tenths (0.9 → 9, -0.8 → -8, 0.1 → 1). -/
structure Sentiment where
  label : String
  score : Int
deriving DecidableEq, Repr

/-- `etl.analyze_sentiment` (stub): keyword lookup on the lowercased text. -/
def analyze_sentiment (text : String) : Sentiment :=
  let lt := (py_lower text).toList
  if has_sub "happy".toList lt || has_sub "love".toList lt then ⟨"POSITIVE", 9⟩
  else if has_sub "sad".toList lt || has_sub "hate".toList lt then ⟨"NEGATIVE", -8⟩
  else ⟨"NEUTRAL", 1⟩

/-- The per-block loop of `etl.process_youtube_url` (lines 101-112): walk the
cue blocks in order, keep each block `parse_srt_segment` accepts, and count
as failed each rejected block whose stripped text is non-empty.  Returns the
parsed segments in blob order and the failed count. -/
def parse_blocks : List String → List SrtSeg × Nat
  | [] => ([], 0)
  | b :: bs =>
    let r := parse_blocks bs
    match parse_srt_segment b with
    | some seg => (seg :: r.1, r.2)
    | none => if py_strip b == "" then r else (r.1, r.2 + 1)

/-- `srt_captions.strip().split('\n\n')` followed by the block loop: the
whole parse of one subtitle blob. -/
def parse_srt_blob (blob : String) : List SrtSeg × Nat :=
  parse_blocks (py_split "\n\n" (py_strip blob))

/-! ## `database_manager.py`: the four tables

The schema (`setup_database`) defines `videos`, `audios`, `captions` and
`processing_queue`; each becomes a structure for one row plus a list for the
table.  Nullable columns are `Option`s; `NOT NULL` columns are plain values.
-/

/-- One row of `processing_queue`: `id INTEGER PRIMARY KEY`,
`youtube_url TEXT NOT NULL UNIQUE`, `status TEXT NOT NULL DEFAULT 'queued'`,
`status_message TEXT`, `created_at TIMESTAMP DEFAULT CURRENT_TIMESTAMP`,
`updated_at TIMESTAMP`.  The schema has no options / skip-download column. -/
structure QueueEntry where
  id : Nat
  youtube_url : String
  status : String
  status_message : Option String
  created_at : Int
  updated_at : Option Int
deriving DecidableEq, Repr

/-- One row of `videos` (`processed_at` defaults to the insertion clock). -/
structure Video where
  id : Nat
  youtube_url : String
  title : String
  download_path : Option String
  processed_at : Int
deriving DecidableEq, Repr

/-- One row of `audios` (`audio_path TEXT NOT NULL`). -/
structure AudioRow where
  id : Nat
  video_id : Nat
  audio_path : String
deriving DecidableEq, Repr

/-- One row of `captions`; times are in thousandths of a second and the
sentiment score in tenths, as explained in the header. -/
structure CaptionRow where
  id : Nat
  video_id : Nat
  start_time : Int
  end_time : Int
  text : String
  sentiment_label : Option String
  sentiment_score : Option Int
deriving DecidableEq, Repr

/-- The whole SQLite database `project.db`. -/
structure ProjectDB where
  videos : List Video
  audios : List AudioRow
  captions : List CaptionRow
  queue : List QueueEntry
deriving DecidableEq, Repr

/-- The rowid SQLite assigns to a fresh `INTEGER PRIMARY KEY`: one more than
the largest id in the table. -/
def next_id (ids : List Nat) : Nat :=
  ids.foldl (fun m i => max m i) 0 + 1

/-- Bool test for `status = 'queued'`. -/
def queued_b (e : QueueEntry) : Bool :=
  e.status == "queued"

/-- `database_manager.add_urls_to_queue(urls)`: for each url in order,
`INSERT OR IGNORE INTO processing_queue (youtube_url) VALUES (?)` — the row
is inserted with the defaults (`status 'queued'`, null message, `created_at`
= the current clock, null `updated_at`) unless a row with that
`youtube_url` already exists, in which case the insert is ignored.
The function takes no options: nothing but the url is recorded. -/
def add_urls_to_queue (now : Int) (urls : List String) (q : List QueueEntry) :
    List QueueEntry :=
  urls.foldl
    (fun acc u =>
      if acc.any (fun e => e.youtube_url == u) then acc
      else acc ++ [⟨next_id (acc.map QueueEntry.id), u, "queued", none, now, none⟩])
    q

/-- The row `SELECT id, youtube_url FROM processing_queue WHERE status =
'queued' ORDER BY created_at LIMIT 1` fetches: some entry with minimal
`created_at` among the queued ones (this model keeps the earliest-listed row
on ties; SQLite leaves ties unspecified). -/
def pick_oldest : List QueueEntry → Option QueueEntry
  | [] => none
  | e :: rest =>
    match pick_oldest rest with
    | none => some e
    | some b => if b.created_at < e.created_at then some b else some e

/-- `UPDATE processing_queue SET status = 'processing', updated_at = ? WHERE
id = ?`. -/
def mark_processing (jid : Nat) (now : Int) (q : List QueueEntry) : List QueueEntry :=
  q.map (fun f =>
    if f.id == jid then { f with status := "processing", updated_at := some now }
    else f)

/-- `database_manager.get_next_queued_url_and_update()`: fetch the oldest
queued row; if none, return `None` and leave the table alone; otherwise set
it to `processing` with the current clock and return its url (only the url —
the function returns no options). -/
def get_next_queued_url_and_update (now : Int) (q : List QueueEntry) :
    Option String × List QueueEntry :=
  match pick_oldest (q.filter queued_b) with
  | none => (none, q)
  | some e => (some e.youtube_url, mark_processing e.id now q)

/-- `database_manager.update_queue_status(url, status, message)`:
`UPDATE processing_queue SET status = ?, status_message = ?, updated_at = ?
WHERE youtube_url = ?` — unconditional on the row's current status. -/
def update_queue_status (url status : String) (message : Option String) (now : Int)
    (q : List QueueEntry) : List QueueEntry :=
  q.map (fun e =>
    if e.youtube_url == url then
      { e with status := status, status_message := message, updated_at := some now }
    else e)

/-- `database_manager.requeue_stale_jobs(timeout_minutes=60)`:
`UPDATE processing_queue SET status = 'queued', status_message = 'Re-queued
after timeout' WHERE status = 'processing' AND (strftime('%s','now') -
strftime('%s', updated_at)) > timeout_minutes * 60`.  A null `updated_at`
makes the SQL comparison NULL, hence false, so such rows are untouched;
`updated_at` itself is not modified. -/
def requeue_stale_jobs (timeout_minutes : Nat) (now : Int) (q : List QueueEntry) :
    List QueueEntry :=
  q.map (fun e =>
    let stale := e.status == "processing" &&
      (match e.updated_at with
       | some t => decide (now - t > (timeout_minutes : Int) * 60)
       | none => false)
    if stale then { e with status := "queued", status_message := some "Re-queued after timeout" }
    else e)

/-- Python truthiness of the nullable `download_path` in
`delete_video_and_references` (`if video_path:`): both `None` and the empty
string are falsy. -/
def truthy_path : Option String → List String
  | some p => if p == "" then [] else [p]
  | none => []

/-- `database_manager.delete_video_and_references(video_id)`: fetch the first
video row with that id; if none, return the unchanged database and `[]`.
Otherwise gather the truthy `download_path` and the truthy `audio_path`s of
the video's audio rows, delete the video row (cascading to its `audios` and
`captions` rows — `PRAGMA foreign_keys = ON` is set on this connection), and
delete the queue row with the same url if the url is truthy.  Returns the
new database and the gathered paths. -/
def delete_video_and_references (db : ProjectDB) (video_id : Nat) :
    ProjectDB × List String :=
  match db.videos.find? (fun v => v.id == video_id) with
  | none => (db, [])
  | some v =>
    let paths := truthy_path v.download_path ++
      (db.audios.filter (fun a => a.video_id == video_id)).filterMap
        (fun a => if a.audio_path == "" then none else some a.audio_path)
    let db' : ProjectDB :=
      { videos := db.videos.filter (fun x => !(x.id == video_id))
        audios := db.audios.filter (fun a => !(a.video_id == video_id))
        captions := db.captions.filter (fun c => !(c.video_id == video_id))
        queue :=
          if v.youtube_url == "" then db.queue
          else db.queue.filter (fun e => !(e.youtube_url == v.youtube_url)) }
    (db', paths)

/-! ## `etl.process_youtube_url`

The pytubefix collaborator (network, metadata, streams) is abstracted as an
environment of outcomes the worker observes for one url: the caption code
found (`yt.captions.get('en') or yt.captions.get('a.en')`), and the
results — value or raised exception message — of `generate_srt_captions`,
the highest-resolution video download and the audio-only download.
Database writes are total; what the run writes is captured in the returned
outcome record.
-/

/-- The observable behaviour of pytubefix for one url. -/
structure YtEnv where
  title : String
  caption : Option String
  srtGen : Except String String
  videoDl : Except String String
  audioDl : Except String String

/-- What one `process_youtube_url` run wrote: the final
`update_queue_status` status and message, the caption rows added (segment
plus sentiment, in order), the `download_path` written by
`update_video_path`, and the `audio_path` added by `add_audio`. -/
structure ProcOutcome where
  status : String
  message : String
  captionsAdded : List (SrtSeg × Sentiment)
  videoPathSet : Option String
  audioAdded : Option String
deriving DecidableEq, Repr

/-- `etl.process_youtube_url(url, skip_download)` (lines 56-140), for a url
whose metadata resolves to `env`: with an English caption track it
optionally downloads the video, generates the SRT blob (empty blob or a
raised exception is a failure), parses the cue blocks, persists each parsed
segment with its sentiment, and writes `completed` with the segment count
if at least one cue parsed, else `failed`; with no caption track it
downloads audio only, records it, and writes `completed`, any download
exception becoming `failed` with the exception message. -/
def process_youtube_url (env : YtEnv) (skip_download : Bool) : ProcOutcome :=
  match env.caption with
  | some _ =>
    let dl : Except String (Option String) :=
      if skip_download then Except.ok none
      else
        match env.videoDl with
        | Except.ok p => Except.ok (some p)
        | Except.error e => Except.error e
    match dl with
    | Except.error e =>
      ⟨"failed", "An error occurred during download or caption processing: " ++ e,
        [], none, none⟩
    | Except.ok vp =>
      match env.srtGen with
      | Except.error e =>
        ⟨"failed", "An error occurred during download or caption processing: " ++ e,
          [], vp, none⟩
      | Except.ok srt =>
        if srt == "" then
          ⟨"failed", "Caption track was found, but failed to generate SRT content.",
            [], vp, none⟩
        else
          let r := parse_srt_blob srt
          let stored := r.1.map (fun s => (s, analyze_sentiment s.text))
          if r.1.length > 0 then
            ⟨"completed",
              "Successfully processed with " ++ toString r.1.length ++ " caption segments.",
              stored, vp, none⟩
          else
            ⟨"failed", "Processed, but failed to parse any caption segments.",
              stored, vp, none⟩
  | none =>
    match env.audioDl with
    | Except.ok ap =>
      ⟨"completed", "No English captions found. Downloading audio only for reference.",
        [], none, some ap⟩
    | Except.error e =>
      ⟨"failed", "An error occurred during audio download: " ++ e, [], none, none⟩

/-! ## Concrete inputs used by the theorems -/

/-- The example subtitle blob from the specification: three cues, the second
with the unparseable timestamp line `bad-timestamp`. -/
def ex_blob : String := "1\n00:00:01,000 --> 00:00:02,500\nI am happy\n\n2\nbad-timestamp\nskip me\n\n3\n00:00:03,000 --> 00:00:04,000\nI am sad\n"

/-- A blob whose two cues are both well formed but appear in decreasing
start-time order (5s before 1s). -/
def unordered_blob : String :=
  "1\n00:00:05,000 --> 00:00:06,000\nb\n\n2\n00:00:01,000 --> 00:00:02,000\na"

/-- A database whose single video has the non-null but empty
`download_path` `''` and the empty url `''` (both legal under the schema:
the columns are `TEXT`, only nullability is constrained), plus the queue
row sharing that url. -/
def edge_db : ProjectDB :=
  { videos := [⟨1, "", "t", some "", 0⟩]
    audios := []
    captions := []
    queue := [⟨1, "", "queued", none, 0, none⟩] }

/-- An ordinary populated database: one video with a download, one audio
asset, one caption row and the queue row for its url. -/
def demo_db : ProjectDB :=
  { videos := [⟨1, "w", "t", some "/v.mp4", 0⟩]
    audios := [⟨1, 1, "/a.mp3"⟩]
    captions := [⟨1, 1, 1000, 2000, "hi", some "NEUTRAL", some 1⟩]
    queue := [⟨1, "w", "processing", none, 0, some 1⟩] }

/-- A pytubefix environment with an English caption track whose generated
SRT blob is the specification's example blob. -/
def demo_env : YtEnv :=
  { title := "t"
    caption := some "en"
    srtGen := Except.ok ex_blob
    videoDl := Except.error "offline"
    audioDl := Except.error "offline" }

/-! ## Helper lemmas -/

/-- A non-empty list always yields a fetched row. -/
theorem pick_oldest_isSome {l : List QueueEntry} (h : l ≠ []) :
    ∃ b, pick_oldest l = some b := by
  cases l with
  | nil => exact absurd rfl h
  | cons e rest =>
    cases hr : pick_oldest rest with
    | none => exact ⟨e, by simp [pick_oldest, hr]⟩
    | some b =>
      by_cases hb : b.created_at < e.created_at
      · exact ⟨b, by simp [pick_oldest, hr, hb]⟩
      · exact ⟨e, by simp [pick_oldest, hr, hb]⟩

/-- The fetched row is a row of the table. -/
theorem pick_oldest_mem : ∀ {l : List QueueEntry} {e : QueueEntry},
    pick_oldest l = some e → e ∈ l
  | [], e, h => by simp [pick_oldest] at h
  | a :: rest, e, h => by
    cases hr : pick_oldest rest with
    | none =>
      simp [pick_oldest, hr] at h
      simp [h]
    | some b =>
      simp [pick_oldest, hr] at h
      by_cases hb : b.created_at < a.created_at
      · rw [if_pos hb] at h
        cases h
        exact List.mem_cons_of_mem a (pick_oldest_mem hr)
      · rw [if_neg hb] at h
        cases h
        exact List.mem_cons_self a rest

/-- The fetched row has minimal `created_at` (`ORDER BY created_at LIMIT 1`). -/
theorem pick_oldest_min : ∀ {l : List QueueEntry} {e : QueueEntry},
    pick_oldest l = some e → ∀ f ∈ l, e.created_at ≤ f.created_at
  | [], e, h => by simp [pick_oldest] at h
  | a :: rest, e, h => by
    intro f hf
    cases hr : pick_oldest rest with
    | none =>
      have hrest : rest = [] := by
        cases rest with
        | nil => rfl
        | cons c cs =>
          obtain ⟨b, hb⟩ := pick_oldest_isSome (l := c :: cs) (by simp)
          rw [hr] at hb
          cases hb
      subst hrest
      simp [pick_oldest, hr] at h
      simp at hf
      simp [h, hf]
    | some b =>
      simp [pick_oldest, hr] at h
      rcases List.mem_cons.mp hf with hfa | hfr
      · subst hfa
        by_cases hb : b.created_at < f.created_at
        · rw [if_pos hb] at h
          cases h
          exact le_of_lt hb
        · rw [if_neg hb] at h
          cases h
          exact le_refl _
      · by_cases hb : b.created_at < a.created_at
        · rw [if_pos hb] at h
          cases h
          exact pick_oldest_min hr f hfr
        · rw [if_neg hb] at h
          cases h
          exact le_trans (not_lt.mp hb) (pick_oldest_min hr f hfr)

/-! ## Claim theorems -/

/-- C1: `claim_next` (`get_next_queued_url_and_update`), when at least one
queue entry has status `queued`, selects a queued entry with the smallest
`created_at`, sets its status to `processing` with an updated timestamp, and
returns its url; called twice in immediate succession with exactly one
queued entry present, the first call returns that entry's url and the second
call returns nothing; when no queued entry exists it returns nothing and
changes no entry. -/
theorem claim_next_spec (now now2 : Int) (q : List QueueEntry) :
    ((∀ f ∈ q, f.status ≠ "queued") →
      get_next_queued_url_and_update now q = (none, q)) ∧
    (∀ u q2, get_next_queued_url_and_update now q = (some u, q2) →
      ∃ e, e ∈ q ∧ e.status = "queued" ∧ u = e.youtube_url ∧
        (∀ f ∈ q, f.status = "queued" → e.created_at ≤ f.created_at) ∧
        q2 = mark_processing e.id now q) ∧
    (∀ e, e ∈ q → e.status = "queued" →
      (∀ f ∈ q, f.status = "queued" → f = e) →
      (get_next_queued_url_and_update now q).1 = some e.youtube_url ∧
      (get_next_queued_url_and_update now2
        (get_next_queued_url_and_update now q).2).1 = none) := by
  refine ⟨?_, ?_, ?_⟩
  · intro h
    have hf : q.filter queued_b = [] := by
      apply List.filter_eq_nil_iff.mpr
      intro a ha
      simp [queued_b]
      exact h a ha
    simp [get_next_queued_url_and_update, hf, pick_oldest]
  · intro u q2 h
    cases hp : pick_oldest (q.filter queued_b) with
    | none => simp [get_next_queued_url_and_update, hp] at h
    | some e =>
      simp [get_next_queued_url_and_update, hp] at h
      have hmem := pick_oldest_mem hp
      rw [List.mem_filter] at hmem
      refine ⟨e, hmem.1, ?_, h.1.symm, ?_, h.2.symm⟩
      · have h2 := hmem.2
        simpa [queued_b] using h2
      · intro f hf hfq
        exact pick_oldest_min hp f (List.mem_filter.mpr ⟨hf, by simp [queued_b, hfq]⟩)
  · intro e he heq huniq
    have hef : e ∈ q.filter queued_b :=
      List.mem_filter.mpr ⟨he, by simp [queued_b, heq]⟩
    have hne : q.filter queued_b ≠ [] := by
      intro h0
      rw [h0] at hef
      simp at hef
    obtain ⟨b, hb⟩ := pick_oldest_isSome hne
    have hbmem := pick_oldest_mem hb
    rw [List.mem_filter] at hbmem
    have hbq : b.status = "queued" := by
      have h2 := hbmem.2
      simpa [queued_b] using h2
    have hbe : b = e := huniq b hbmem.1 hbq
    subst hbe
    constructor
    · simp [get_next_queued_url_and_update, hb]
    · have hstate : (get_next_queued_url_and_update now q).2 = mark_processing b.id now q := by
        simp [get_next_queued_url_and_update, hb]
      rw [hstate]
      have hf2 : (mark_processing b.id now q).filter queued_b = [] := by
        apply List.filter_eq_nil_iff.mpr
        intro a ha
        obtain ⟨g, hg, hga⟩ := List.mem_map.mp ha
        by_cases hid : g.id == b.id
        · rw [if_pos hid] at hga
          simp [queued_b, ← hga]
        · rw [if_neg hid] at hga
          subst hga
          simp [queued_b]
          intro hgq
          have hge := huniq g hg hgq
          rw [hge] at hid
          simp at hid
      simp [get_next_queued_url_and_update, hf2, pick_oldest]

/-- Witness for C1 at a concrete one-entry queue. -/
theorem claim_next_spec_witness :
    (get_next_queued_url_and_update 5 [⟨1, "u", "queued", none, 0, none⟩]).1 = some "u" ∧
    (get_next_queued_url_and_update 6
      (get_next_queued_url_and_update 5 [⟨1, "u", "queued", none, 0, none⟩]).2).1 = none := by
  have h := (claim_next_spec 5 6 [⟨1, "u", "queued", none, 0, none⟩]).2.2
    ⟨1, "u", "queued", none, 0, none⟩ (by simp) rfl
    (by
      intro f hf _
      simpa using hf)
  exact h

/-- C2 (code-bug evidence): enqueueing a url and then claiming it moves only
the bare url through the queue.  `add_urls_to_queue` records nothing beyond
the url and the schema's default columns (the `processing_queue` table has no
skip-download column), and `get_next_queued_url_and_update` returns only an
`Option String` — no options travel with the claim, although `app.py` passes
`skip_download=` to the enqueue and `etl.main` unpacks the claim result into
`(url, flag)`. -/
theorem enqueue_then_claim_returns_bare_url :
    get_next_queued_url_and_update 1 (add_urls_to_queue 0 ["https://u"] []) =
      (some "https://u", [⟨1, "https://u", "processing", none, 0, some 1⟩]) := by
  decide

/-- C3: enqueueing a url that already has a queue entry, in any status, is a
no-op for that entry; after any two enqueues of the same url (starting from
a table respecting the UNIQUE constraint) there is exactly one entry for it,
and the second enqueue changes nothing at all. -/
theorem enqueue_idempotent_spec (now now2 : Int) (u : String) (q : List QueueEntry) :
    ((∃ e ∈ q, e.youtube_url = u) → add_urls_to_queue now [u] q = q) ∧
    (q.countP (fun e => e.youtube_url == u) ≤ 1 →
      add_urls_to_queue now2 [u] (add_urls_to_queue now [u] q) =
        add_urls_to_queue now [u] q ∧
      (add_urls_to_queue now [u] q).countP (fun e => e.youtube_url == u) = 1) := by
  have hadd : ∀ (n : Int) (l : List QueueEntry), add_urls_to_queue n [u] l =
      if l.any (fun e => e.youtube_url == u) then l
      else l ++ [⟨next_id (l.map QueueEntry.id), u, "queued", none, n, none⟩] := by
    intro n l
    simp [add_urls_to_queue, List.foldl]
  constructor
  · rintro ⟨e, he, heu⟩
    rw [hadd, if_pos (List.any_eq_true.mpr ⟨e, he, by simp [heu]⟩)]
  · intro hcount
    by_cases hany : q.any (fun e => e.youtube_url == u)
    · have h1 : add_urls_to_queue now [u] q = q := by rw [hadd, if_pos hany]
      have hpos : 0 < q.countP (fun e => e.youtube_url == u) := by
        obtain ⟨e, he, hp⟩ := List.any_eq_true.mp hany
        exact List.countP_pos_iff.mpr ⟨e, he, hp⟩
      refine ⟨?_, ?_⟩
      · rw [h1, hadd, if_pos hany]
      · rw [h1]
        omega
    · rw [Bool.not_eq_true] at hany
      have hzero : q.countP (fun e => e.youtube_url == u) = 0 := by
        rw [List.countP_eq_zero]
        intro e he hp
        exact (Bool.eq_false_iff.mp hany) (List.any_eq_true.mpr ⟨e, he, hp⟩)
      have h1 : add_urls_to_queue now [u] q =
          q ++ [⟨next_id (q.map QueueEntry.id), u, "queued", none, now, none⟩] := by
        rw [hadd, if_neg (by simp [hany])]
      have hany1 : (add_urls_to_queue now [u] q).any (fun e => e.youtube_url == u) := by
        rw [h1]
        exact List.any_eq_true.mpr
          ⟨⟨next_id (q.map QueueEntry.id), u, "queued", none, now, none⟩, by simp, by simp⟩
      refine ⟨?_, ?_⟩
      · rw [hadd, if_pos hany1]
      · rw [h1, List.countP_append, hzero]
        simp

/-- Witness for C3 at the empty queue. -/
theorem enqueue_idempotent_spec_witness :
    add_urls_to_queue 1 ["u"] (add_urls_to_queue 0 ["u"] []) =
      add_urls_to_queue 0 ["u"] [] ∧
    (add_urls_to_queue 0 ["u"] []).countP (fun e => e.youtube_url == "u") = 1 :=
  (enqueue_idempotent_spec 0 1 "u" []).2 (by decide)

/-- C4 counterexample: `update_queue_status` carries no guard on the current
status — a `queued` entry (never claimed, hence not `processing`) is moved
straight to the terminal status `completed` by `complete(url, message)`. -/
theorem update_status_unguarded_counterexample :
    update_queue_status "u" "completed" (some "done") 5
        [⟨1, "u", "queued", none, 0, none⟩] =
      [⟨1, "u", "completed", some "done", 0, some 5⟩] := by
  decide

/-- C4 (amended): `complete(url, message)` / `fail(url, message)`
(`update_queue_status` with a terminal status) move the entry with the
matching url to the terminal status and record the message and timestamp
unconditionally — from any current status, not only from `processing`; the
only-from-`processing` rule is a discipline of the callers, not enforced
here.  Entries with a different url are untouched and the table keeps its
length. -/
theorem update_queue_status_spec (url status : String) (message : Option String)
    (now : Int) (q : List QueueEntry) :
    ((update_queue_status url status message now q).length = q.length) ∧
    (∀ e ∈ q, e.youtube_url = url →
      ({ e with status := status, status_message := message,
                updated_at := some now } : QueueEntry) ∈
        update_queue_status url status message now q) ∧
    (∀ e ∈ q, e.youtube_url ≠ url →
      e ∈ update_queue_status url status message now q) := by
  refine ⟨by simp [update_queue_status], ?_, ?_⟩
  · intro e he heu
    exact List.mem_map.mpr ⟨e, he, by simp [heu]⟩
  · intro e he heu
    exact List.mem_map.mpr ⟨e, he, by simp [heu]⟩

/-- Witness for C4's amended theorem at a concrete one-entry queue. -/
theorem update_queue_status_spec_witness :
    (⟨1, "u", "completed", some "m", 0, some 5⟩ : QueueEntry) ∈
      update_queue_status "u" "completed" (some "m") 5
        [⟨1, "u", "queued", none, 0, none⟩] :=
  (update_queue_status_spec "u" "completed" (some "m") 5
      [⟨1, "u", "queued", none, 0, none⟩]).2.1
    ⟨1, "u", "queued", none, 0, none⟩ (by simp) rfl

/-- C7: `reap_stale` (`requeue_stale_jobs` with timeout T minutes) resets to
`queued`, with a message noting the requeue, exactly those entries whose
status is `processing` and whose `updated_at` is strictly before
`now - T*60` seconds; every `processing` entry updated within the timeout,
every entry whose status is not `processing`, and every entry with no
`updated_at` is left untouched. -/
theorem reap_stale_spec (T : Nat) (now : Int) (q : List QueueEntry) :
    requeue_stale_jobs T now q = q.map (fun e =>
      match e.updated_at with
      | none => e
      | some t =>
        if e.status = "processing" ∧ t < now - (T : Int) * 60 then
          { e with status := "queued", status_message := some "Re-queued after timeout" }
        else e) := by
  unfold requeue_stale_jobs
  apply List.map_congr_left
  intro e _
  cases ht : e.updated_at with
  | none => simp [ht]
  | some t =>
    simp only [ht]
    by_cases hs : e.status = "processing"
    · by_cases hlt : t < now - (T : Int) * 60
      · have hgt : now - t > (T : Int) * 60 := by omega
        simp [hs, hgt, hlt]
      · have hgt : ¬ now - t > (T : Int) * 60 := by omega
        simp [hs, hgt, hlt]
    · simp [hs]

/-- The block loop in closed form: the segments are exactly the blocks
`parse_srt_segment` accepts, in blob order, and the failed count is exactly
the number of rejected blocks with non-empty stripped text. -/
theorem parse_blocks_eq (blocks : List String) :
    parse_blocks blocks =
      (blocks.filterMap parse_srt_segment,
       blocks.countP (fun b => (parse_srt_segment b).isNone && !(py_strip b == ""))) := by
  induction blocks with
  | nil => rfl
  | cons b bs ih =>
    cases hb : parse_srt_segment b with
    | some seg =>
      simp [parse_blocks, hb, ih, List.filterMap_cons, List.countP_cons]
    | none =>
      by_cases hs : py_strip b == ""
      · simp [parse_blocks, hb, ih, List.filterMap_cons, List.countP_cons, hs]
      · simp [parse_blocks, hb, ih, List.filterMap_cons, List.countP_cons, hs]

/-- C5 counterexample: a blob whose cues are all well formed (so K = 2,
M = 0) parses to 2 segments and 0 skipped as claimed, but the segments come
back in blob order — start times `[5000, 1000]` (thousandths of a second),
which is *not* nondecreasing.  The parser never sorts. -/
theorem parse_order_counterexample :
    (py_split "\n\n" (py_strip unordered_blob)).all
        (fun b => (parse_srt_segment b).isSome) = true ∧
    (parse_srt_blob unordered_blob).1.map SrtSeg.start = [5000, 1000] ∧
    (parse_srt_blob unordered_blob).2 = 0 ∧
    ¬ List.Pairwise (fun a b => a ≤ b)
        ((parse_srt_blob unordered_blob).1.map SrtSeg.start) := by
  refine ⟨by decide, by decide, by decide, ?_⟩
  intro h
  rw [show (parse_srt_blob unordered_blob).1.map SrtSeg.start = [5000, 1000] from by decide]
    at h
  have h51 : (5000 : Int) ≤ 1000 := by
    have := List.pairwise_cons.mp h
    exact this.1 1000 (by simp)
  omega

/-- C5 (amended): for every list of cue blocks, the loop returns exactly the
well-formed cues as segments — in the order they occur in the blob, not
re-sorted by start time — and counts exactly the malformed cues as skipped;
inserting one malformed cue anywhere leaves the segments unchanged and adds
one to the skipped count (malformed cues are never fatal); and
`parse_srt_blob` is exactly this loop after splitting the stripped blob on
blank lines. -/
theorem parse_blocks_spec (blocks : List String) :
    (parse_blocks blocks).1 = blocks.filterMap parse_srt_segment ∧
    (parse_blocks blocks).2 =
      blocks.countP (fun b => (parse_srt_segment b).isNone && !(py_strip b == "")) ∧
    (∀ xs ys bad, parse_srt_segment bad = none → py_strip bad ≠ "" →
      parse_blocks (xs ++ bad :: ys) =
        ((parse_blocks (xs ++ ys)).1, (parse_blocks (xs ++ ys)).2 + 1)) ∧
    (∀ blob, parse_srt_blob blob = parse_blocks (py_split "\n\n" (py_strip blob))) := by
  refine ⟨by rw [parse_blocks_eq], by rw [parse_blocks_eq], ?_, fun blob => rfl⟩
  intro xs ys bad hbad hstrip
  have hpred : ((parse_srt_segment bad).isNone && !(py_strip bad == "")) = true := by
    simp [hbad, hstrip]
  rw [parse_blocks_eq, parse_blocks_eq]
  simp [List.filterMap_append, List.countP_append, List.filterMap_cons,
    List.countP_cons, hbad, hpred, hstrip]
  omega

/-- Witness for C5's amended theorem: inserting the malformed one-line cue
`"x"` into the empty block list yields no segments and one skipped cue. -/
theorem parse_blocks_spec_witness :
    parse_blocks ["x"] = (([] : List SrtSeg), 1) := by
  have h := (parse_blocks_spec []).2.2.1 [] [] "x" (by decide) (by decide)
  exact h.trans (by decide)

/-- C9: the specification's example blob (three cues, the second with the
unparseable timestamp line `bad-timestamp`) yields exactly the two segments
(1.0s, 2.5s, "I am happy") and (3.0s, 4.0s, "I am sad") — times in
thousandths of a second — scored POSITIVE and NEGATIVE respectively, with
exactly one skipped cue. -/
theorem example_blob_spec :
    parse_srt_blob ex_blob =
      ([⟨1000, 2500, "I am happy"⟩, ⟨3000, 4000, "I am sad"⟩], 1) ∧
    analyze_sentiment "I am happy" = ⟨"POSITIVE", 9⟩ ∧
    analyze_sentiment "I am sad" = ⟨"NEGATIVE", -8⟩ := by
  decide

/-- C10: every cue block whose stripped content has fewer than three lines is
rejected by `parse_srt_segment`; in particular a cue consisting only of an
index line and a valid timestamp line, with no text line, is counted as a
failed cue by the block loop rather than yielding a segment with empty
text. -/
theorem short_block_spec :
    (∀ segment : String, (py_split "\n" (py_strip segment)).length < 3 →
      parse_srt_segment segment = none) ∧
    parse_blocks ["1\n00:00:01,000 --> 00:00:02,000"] = ([], 1) := by
  constructor
  · intro segment h
    simp [parse_srt_segment, h]
  · decide

/-- Witness for C10's universally quantified part at the two-line cue. -/
theorem short_block_spec_witness :
    parse_srt_segment "1\n00:00:01,000 --> 00:00:02,000" = none :=
  short_block_spec.1 "1\n00:00:01,000 --> 00:00:02,000" (by decide)

/-- C6: the terminal status `process_youtube_url` writes for a claimed job:
`completed`, with a message stating the segment count, when an English
caption track exists, the blob generation (and the video download, unless
skipped) succeeds, the blob is non-empty and at least one cue parses;
`failed` when such a non-empty blob yields zero parseable segments; and
`completed`, with the captions-unavailable message and the downloaded audio
recorded, when no English caption track exists and the audio download
succeeds — absence of captions is not by itself a failure. -/
theorem process_outcome_spec (env : YtEnv) (skip : Bool) (blob p : String) :
    (env.caption.isSome = true →
      (skip = false → ∃ vp, env.videoDl = Except.ok vp) →
      env.srtGen = Except.ok blob → blob ≠ "" →
      ((0 < (parse_srt_blob blob).1.length →
        (process_youtube_url env skip).status = "completed" ∧
        (process_youtube_url env skip).message =
          "Successfully processed with " ++ toString (parse_srt_blob blob).1.length ++
            " caption segments.") ∧
      ((parse_srt_blob blob).1.length = 0 →
        (process_youtube_url env skip).status = "failed" ∧
        (process_youtube_url env skip).message =
          "Processed, but failed to parse any caption segments."))) ∧
    (env.caption = none → env.audioDl = Except.ok p →
      (process_youtube_url env skip).status = "completed" ∧
      (process_youtube_url env skip).audioAdded = some p ∧
      (process_youtube_url env skip).message =
        "No English captions found. Downloading audio only for reference.") := by
  constructor
  · intro hcap hdl hsrt hblob
    obtain ⟨c, hc⟩ := Option.isSome_iff_exists.mp hcap
    cases skip with
    | true =>
      constructor
      · intro hlen
        constructor <;>
          simp [process_youtube_url, hc, hsrt, hblob, hlen]
      · intro hlen
        constructor <;>
          simp [process_youtube_url, hc, hsrt, hblob, hlen]
    | false =>
      obtain ⟨vp, hvp⟩ := hdl rfl
      constructor
      · intro hlen
        constructor <;>
          simp [process_youtube_url, hc, hvp, hsrt, hblob, hlen]
      · intro hlen
        constructor <;>
          simp [process_youtube_url, hc, hvp, hsrt, hblob, hlen]
  · intro hcap hau
    refine ⟨?_, ?_, ?_⟩ <;> simp [process_youtube_url, hcap, hau]

/-- Witness for C6 at a concrete environment: an English track whose SRT
blob is the specification's example blob, with the video download skipped. -/
theorem process_outcome_spec_witness :
    (process_youtube_url demo_env true).status = "completed" ∧
    (process_youtube_url demo_env true).message =
      "Successfully processed with " ++ toString (parse_srt_blob ex_blob).1.length ++
        " caption segments." :=
  ((process_outcome_spec demo_env true ex_blob "").1 (by decide)
    (fun hsk => absurd hsk (by decide)) rfl (by decide)).1 (by decide)

/-- C8 counterexample: the deletion helper filters paths and the queue row by
Python truthiness, not by nullability — for a video whose `download_path` is
the non-null empty string and whose url is the empty string, `delete`
returns no paths (though a non-null path value existed) and leaves the
queue entry with the video's url in place. -/
theorem delete_paths_counterexample :
    edge_db.videos = [⟨1, "", "t", some "", 0⟩] ∧
    (delete_video_and_references edge_db 1).2 = [] ∧
    (delete_video_and_references edge_db 1).1.queue =
      [⟨1, "", "queued", none, 0, none⟩] := by
  decide

/-- C8 (amended): `delete(video_id)`, when a video with that id exists,
removes the video row, every audio and caption row owned by it, and — when
the video's url is non-empty — the queue entry with the same url, and
returns exactly the non-null *and non-empty* `download_path` and
`audio_path` values that existed on those rows; when no such video exists it
returns an empty collection and performs no writes. -/
theorem delete_video_spec (db : ProjectDB) (vid : Nat) :
    (db.videos.find? (fun v => v.id == vid) = none →
      delete_video_and_references db vid = (db, [])) ∧
    (∀ v, db.videos.find? (fun v => v.id == vid) = some v →
      (delete_video_and_references db vid).2 =
        truthy_path v.download_path ++
          (db.audios.filter (fun a => a.video_id == vid)).filterMap
            (fun a => if a.audio_path == "" then none else some a.audio_path) ∧
      (∀ x ∈ (delete_video_and_references db vid).1.videos, x.id ≠ vid) ∧
      (∀ a ∈ (delete_video_and_references db vid).1.audios, a.video_id ≠ vid) ∧
      (∀ c ∈ (delete_video_and_references db vid).1.captions, c.video_id ≠ vid) ∧
      (delete_video_and_references db vid).1.videos =
        db.videos.filter (fun x => !(x.id == vid)) ∧
      (delete_video_and_references db vid).1.audios =
        db.audios.filter (fun a => !(a.video_id == vid)) ∧
      (delete_video_and_references db vid).1.captions =
        db.captions.filter (fun c => !(c.video_id == vid)) ∧
      (v.youtube_url ≠ "" →
        (delete_video_and_references db vid).1.queue =
          db.queue.filter (fun e => !(e.youtube_url == v.youtube_url)) ∧
        ∀ e ∈ (delete_video_and_references db vid).1.queue,
          e.youtube_url ≠ v.youtube_url)) := by
  constructor
  · intro h
    simp [delete_video_and_references, h]
  · intro v hv
    refine ⟨?_, ?_, ?_, ?_, ?_, ?_, ?_, ?_⟩
    · simp [delete_video_and_references, hv]
    · intro x hx
      simp only [delete_video_and_references, hv] at hx
      have := (List.mem_filter.mp hx).2
      simpa using this
    · intro a ha
      simp only [delete_video_and_references, hv] at ha
      have := (List.mem_filter.mp ha).2
      simpa using this
    · intro c hc
      simp only [delete_video_and_references, hv] at hc
      have := (List.mem_filter.mp hc).2
      simpa using this
    · simp [delete_video_and_references, hv]
    · simp [delete_video_and_references, hv]
    · simp [delete_video_and_references, hv]
    · intro hurl
      constructor
      · simp [delete_video_and_references, hv, hurl]
      · intro e he
        simp only [delete_video_and_references, hv] at he
        rw [if_neg (by simpa using hurl)] at he
        have := (List.mem_filter.mp he).2
        simpa using this

/-- Witness for C8's amended theorem at a populated database. -/
theorem delete_video_spec_witness :
    (delete_video_and_references demo_db 1).2 = ["/v.mp4", "/a.mp3"] ∧
    (delete_video_and_references demo_db 1).1.queue = [] := by
  have h := (delete_video_spec demo_db 1).2 ⟨1, "w", "t", some "/v.mp4", 0⟩ rfl
  exact ⟨h.1.trans (by decide),
    (h.2.2.2.2.2.2.2 (by decide)).1.trans (by decide)⟩
